import Mathlib

/-!
Verification of the Pydra capture-file ingestion and analysis core.

This file gives a shallow embedding, in Lean 4, of the parts of the
repository that the checked properties talk about:

* `src/formats/integrity.py` — the `Integrity` grade enum;
* `src/formats/presentmon.py` — inspection items and
  `update_integrity_by_inspection` / `evaluate_integrity`;
* `src/formats/capturefile.py` — `return_optimal_dtype`, the
  stutter/oscillation heuristics, `infer_polling_rate`,
  `column` / `column_by_alias`, and the block-wise file hashing;
* `src/core/fileloader.py` — `infer_format` fingerprint matching;
* `src/gui/plotobject.py` — the per-section statistics cache.

Numeric data is modelled with `ℚ` (the Python code operates on finite
floats/ints; the properties under scrutiny are order/arithmetic facts
that hold verbatim over the rationals, and inputs containing NaN or
infinities are excluded by the claims themselves).  Fallible paths
return `Option` values.  Python dicts are modelled as association
lists looked up by key.
-/

namespace Pydra

/-! ## Integrity (src/formats/integrity.py) -/

/-- The integrity grade enum, one constructor per Python enum member. -/
inductive Integrity where
  | Initialized
  | Pending
  | Ideal
  | Dirty
  | Partial
  | Mangled
  | Invalid
  deriving DecidableEq, Repr

namespace Integrity

/-- `Integrity.id()` — the numeric code of each grade. -/
def id : Integrity → Int
  | .Initialized => -2
  | .Pending => -1
  | .Ideal => 0
  | .Dirty => 1
  | .Partial => 2
  | .Mangled => 3
  | .Invalid => 99

/-- `Integrity.valid()` — codes in `[0, 99)`. -/
def valid (i : Integrity) : Bool :=
  decide (0 ≤ i.id) && decide (i.id < 99)

end Integrity

/-! ## Inspection items and integrity update (src/formats/presentmon.py) -/

/-- One named consistency/validity check result (`InspectionItem`). -/
structure InspectionItem where
  passed : Bool
  violations : Int
  description : String
  deriving DecidableEq, Repr

/-- `InspectionItem.default_result()`. -/
def InspectionItem.default_result : InspectionItem :=
  { passed := false, violations := -1, description := "Field inspection failed" }

/-- A value of the inspection dict: either a real `InspectionItem` or one of
the string separators (e.g. `"section_1" : "-----"`) that
`FrameView.second_gen_inspection` mixes into the mapping. -/
inductive InspectionEntry where
  | item (it : InspectionItem)
  | separator (s : String)
  deriving DecidableEq, Repr

/-- An inspection mapping `{check_name: InspectionItem}`, as an association
list in Python-dict iteration order. -/
abbrev Inspection := List (String × InspectionEntry)

/-- Python `dict.get`: first binding of the key, if any. -/
def alookup {α : Type} (m : List (String × α)) (k : String) : Option α :=
  match m with
  | [] => none
  | (k', v) :: rest => if k' = k then some v else alookup rest k

/-- `PresentMon.passed_inspection` — all entries that are `InspectionItem`s
passed (string separators are filtered out by the `isinstance` check). -/
def passed_inspection (insp : Inspection) : Bool :=
  insp.all fun p =>
    match p.2 with
    | .item it => it.passed
    | .separator _ => true

/-- The list comprehension
`[self.inspection.get(field).passed for field in MAJOR_INSPECTION_ITEMS[...]]`.
A missing key (`dict.get` returns `None`) or a separator value makes
`.passed` raise `AttributeError`, which aborts the whole comprehension;
that abort is the `none` value here. -/
def major_item_results (insp : Inspection) (majors : List String) :
    Option (List Bool) :=
  match majors with
  | [] => some []
  | f :: rest =>
    match alookup insp f with
    | some (.item it) => (major_item_results insp rest).map (it.passed :: ·)
    | _ => none

/-- `PresentMon.update_integrity_by_inspection`.  The surrounding
`try/except` leaves the integrity unchanged when the comprehension over the
major items raises. -/
def update_integrity_by_inspection (integrity : Integrity) (recheck : Bool)
    (insp : Inspection) (majors : List String) : Integrity :=
  if ¬(integrity = .Pending ∨ recheck = true) then integrity
  else if passed_inspection insp then .Ideal
  else
    match major_item_results insp majors with
    | none => integrity
    | some results => if false ∈ results then .Mangled else .Dirty

/-- `PresentMon.evaluate_integrity`: recompute inspection and update the
integrity whenever the `hash((self.height, self.offset))` value changed.
The Python hash key is modelled by the `(height, offset)` pair itself
(equal tuples hash equally); the stored `integrity_hash` starts out as the
`-1` sentinel, modelled as `none`.  The inspection of the (possibly empty)
data is passed in as a parameter; the call always uses `recheck=True`. -/
def evaluate_integrity (integrity : Integrity)
    (integrity_hash : Option (Nat × Nat)) (height offset : Nat)
    (insp : Inspection) (majors : List String) : Integrity :=
  if integrity_hash = some (height, offset) then integrity
  else update_integrity_by_inspection integrity true insp majors

/-- The inspection mapping produced by `PresentMon.inspect_capture` on a file
whose parse failed structurally (empty data, empty headers): every check
comes back as `InspectionItem.default_result()`.  Key set and order follow
the `finally: return {...}` block of `inspect_capture`. -/
def presentmon_failed_inspection : Inspection :=
  [("Application Consistency", .item .default_result),
   ("Swapchain Address Consistency", .item .default_result),
   ("Runtime Consistency", .item .default_result),
   ("Runtime Validity", .item .default_result),
   ("Present Flag Consistency", .item .default_result),
   ("Sync Policy Consistency", .item .default_result),
   ("No Active Sync Policy", .item .default_result),
   ("Tearing is Possible", .item .default_result),
   ("No Dropped Frames", .item .default_result),
   ("Present Mode Consistency", .item .default_result),
   ("Hardware-Based Present Mode", .item .default_result),
   ("Display Change Validity", .item .default_result),
   ("Render Queue Depth", .item .default_result)]

/-- `FrameView.MAJOR_INSPECTION_ITEMS["1.0"]` (src/formats/frameview.py). -/
def frameview_major_items_v10 : List String :=
  ["Application Consistency", "Swapchain Address Consistency",
   "Runtime Consistency", "No Dropped Frames", "Present Mode Consistency",
   "Hardware-Based Present Mode"]

/-! ### Facts about the integrity update -/

/-- Under the hypothesis that every major field is bound to an actual
`InspectionItem`, the comprehension over the major items succeeds, and it
contains `false` exactly when some major item failed. -/
theorem major_item_results_spec (insp : Inspection) (majors : List String)
    (hmaj : ∀ f ∈ majors, ∃ it, alookup insp f = some (.item it)) :
    ∃ l, major_item_results insp majors = some l ∧
      (false ∈ l ↔ ∃ f ∈ majors, ∃ it,
        alookup insp f = some (.item it) ∧ it.passed = false) := by
  induction majors with
  | nil => exact ⟨[], rfl, by simp⟩
  | cons f rest ih =>
    obtain ⟨it, hit⟩ := hmaj f (by simp)
    obtain ⟨l, hl, hiff⟩ := ih (fun g hg => hmaj g (by simp [hg]))
    refine ⟨it.passed :: l, ?_, ?_⟩
    · simp [major_item_results, hit, hl]
    · constructor
      · intro hmem
        rcases List.mem_cons.mp hmem with h | h
        · exact ⟨f, by simp, it, hit, h.symm⟩
        · obtain ⟨g, hg, it', hlook, hfail⟩ := hiff.mp h
          exact ⟨g, by simp [hg], it', hlook, hfail⟩
      · rintro ⟨g, hg, it', hlook, hfail⟩
        rcases List.mem_cons.mp hg with rfl | hg'
        · rw [hit] at hlook
          simp only [Option.some.injEq, InspectionEntry.item.injEq] at hlook
          subst hlook
          simp [hfail]
        · exact List.mem_cons_of_mem _ (hiff.mpr ⟨g, hg', it', hlook, hfail⟩)

/-- C2: after the inspection battery completes (the `recheck=True` call made
by `evaluate_integrity`), and provided every major field for the file's
format/version is bound to an inspection item, the integrity becomes `Ideal`
iff every item passed, `Dirty` iff some item failed but every major item
passed, and `Mangled` iff some major item failed. -/
theorem C2_integrity_grades_by_inspection (integrity : Integrity)
    (insp : Inspection) (majors : List String)
    (hmaj : ∀ f ∈ majors, ∃ it, alookup insp f = some (.item it)) :
    (update_integrity_by_inspection integrity true insp majors = .Ideal ↔
      passed_inspection insp = true) ∧
    (update_integrity_by_inspection integrity true insp majors = .Dirty ↔
      (passed_inspection insp = false ∧ ∀ f ∈ majors, ∀ it,
        alookup insp f = some (.item it) → it.passed = true)) ∧
    (update_integrity_by_inspection integrity true insp majors = .Mangled ↔
      (passed_inspection insp = false ∧ ∃ f ∈ majors, ∃ it,
        alookup insp f = some (.item it) ∧ it.passed = false)) := by
  obtain ⟨l, hl, hiff⟩ := major_item_results_spec insp majors hmaj
  have hnofail : (false ∉ l) ↔ (∀ f ∈ majors, ∀ it,
      alookup insp f = some (.item it) → it.passed = true) := by
    constructor
    · intro h f hf it hit
      by_contra hne
      exact h (hiff.mpr ⟨f, hf, it, hit, by simpa using hne⟩)
    · intro h hmem
      obtain ⟨f, hf, it, hit, hfail⟩ := hiff.mp hmem
      rw [h f hf it hit] at hfail
      simp at hfail
  have hres : update_integrity_by_inspection integrity true insp majors =
      (if passed_inspection insp then Integrity.Ideal
       else if false ∈ l then Integrity.Mangled else Integrity.Dirty) := by
    unfold update_integrity_by_inspection
    rw [if_neg (by simp), hl]
  rw [hres]
  by_cases hpass : passed_inspection insp = true
  · rw [if_pos hpass]
    exact ⟨by simp [hpass], by simp [hpass], by simp [hpass]⟩
  · have hpassf : passed_inspection insp = false := by simpa using hpass
    rw [if_neg hpass]
    by_cases hfail : false ∈ l
    · rw [if_pos hfail]
      refine ⟨by simp [hpassf], ?_, ?_⟩
      · constructor
        · intro hcontra
          simp at hcontra
        · rintro ⟨-, hall⟩
          exact absurd hfail (by simpa using hnofail.mpr hall)
      · exact ⟨fun _ => ⟨hpassf, hiff.mp hfail⟩, fun _ => rfl⟩
    · rw [if_neg hfail]
      refine ⟨by simp [hpassf], ?_, ?_⟩
      · exact ⟨fun _ => ⟨hpassf, hnofail.mp hfail⟩, fun _ => rfl⟩
      · constructor
        · intro hcontra
          simp at hcontra
        · rintro ⟨-, hex⟩
          exact absurd (hiff.mpr hex) hfail

/-- Witness for `C2_integrity_grades_by_inspection` at a concrete inspection
(one failed non-major item, all majors bound and passing): grade `Dirty`. -/
theorem C2_integrity_grades_by_inspection_witness :
    update_integrity_by_inspection .Pending true
      [("Major A", .item ⟨true, 0, "ok"⟩), ("Minor B", .item ⟨false, 3, "bad"⟩)]
      ["Major A"] = .Dirty := by
  have h := C2_integrity_grades_by_inspection .Pending
    [("Major A", .item ⟨true, 0, "ok"⟩), ("Minor B", .item ⟨false, 3, "bad"⟩)]
    ["Major A"]
    (by
      intro f hf
      have hfA : f = "Major A" := by simpa using hf
      subst hfA
      exact ⟨⟨true, 0, "ok"⟩, by decide⟩)
  refine (h.2.1).mpr ⟨by decide, ?_⟩
  intro f hf it hit
  have hfA : f = "Major A" := by simpa using hf
  subst hfA
  have heval : alookup
      [("Major A", InspectionEntry.item ⟨true, 0, "ok"⟩),
       ("Minor B", InspectionEntry.item ⟨false, 3, "bad"⟩)] "Major A" =
      some (.item ⟨true, 0, "ok"⟩) := by decide
  rw [heval] at hit
  simp only [Option.some.injEq, InspectionEntry.item.injEq] at hit
  rw [← hit]

/-- C4 (refuting the absorbing-`Invalid` invariant): a PresentMon-family file
whose `read_log` failed structurally ends the parse attempt with integrity
`Invalid`, data/headers empty, and `integrity_hash = -1`; the
`evaluate_integrity()` call that `__init__` makes next runs the inspection
battery (all items default to failed) and, via
`update_integrity_by_inspection(recheck=True)`, reassigns the integrity to
`Mangled` — a non-`Invalid` value. -/
theorem C4_invalid_overwritten_by_inspection :
    evaluate_integrity .Invalid none 0 0
      presentmon_failed_inspection frameview_major_items_v10 = .Mangled ∧
    (Integrity.Mangled ≠ .Invalid ∧ Integrity.Mangled.valid = true) := by
  decide

end Pydra

namespace Pydra

/-! ## Numeric helpers shared by several embedded functions -/

/-- `np.min` over a nonempty array; the `[]` case stands for the exception
numpy raises on an empty input (callers guard or catch it). -/
def listMin : List ℚ → ℚ
  | [] => 0
  | x :: xs => xs.foldl min x

/-- `np.max` over a nonempty array; `[]` as in `listMin`. -/
def listMax : List ℚ → ℚ
  | [] => 0
  | x :: xs => xs.foldl max x

theorem foldl_min_le_init (l : List ℚ) (a : ℚ) : l.foldl min a ≤ a := by
  induction l generalizing a with
  | nil => simp
  | cons x xs ih =>
    simp only [List.foldl_cons]
    exact le_trans (ih (min a x)) (min_le_left _ _)

theorem foldl_min_le_of_mem {l : List ℚ} {y : ℚ} (hy : y ∈ l) (a : ℚ) :
    l.foldl min a ≤ y := by
  induction l generalizing a with
  | nil => cases hy
  | cons x xs ih =>
    simp only [List.foldl_cons]
    rcases List.mem_cons.mp hy with rfl | hy'
    · exact le_trans (foldl_min_le_init _ _) (min_le_right _ _)
    · exact ih hy' _

theorem foldl_min_mem (l : List ℚ) (a : ℚ) :
    l.foldl min a ∈ l ∨ l.foldl min a = a := by
  induction l generalizing a with
  | nil => simp
  | cons x xs ih =>
    simp only [List.foldl_cons]
    rcases ih (min a x) with h | h
    · exact Or.inl (List.mem_cons_of_mem _ h)
    · rcases min_cases a x with ⟨hm, -⟩ | ⟨hm, -⟩
      · exact Or.inr (by rw [h, hm])
      · exact Or.inl (by rw [h, hm]; exact List.mem_cons_self _ _)

theorem foldl_max_init_le (l : List ℚ) (a : ℚ) : a ≤ l.foldl max a := by
  induction l generalizing a with
  | nil => simp
  | cons x xs ih =>
    simp only [List.foldl_cons]
    exact le_trans (le_max_left _ _) (ih (max a x))

theorem le_foldl_max_of_mem {l : List ℚ} {y : ℚ} (hy : y ∈ l) (a : ℚ) :
    y ≤ l.foldl max a := by
  induction l generalizing a with
  | nil => cases hy
  | cons x xs ih =>
    simp only [List.foldl_cons]
    rcases List.mem_cons.mp hy with rfl | hy'
    · exact le_trans (le_max_right _ _) (foldl_max_init_le _ _)
    · exact ih hy' _

theorem foldl_max_mem (l : List ℚ) (a : ℚ) :
    l.foldl max a ∈ l ∨ l.foldl max a = a := by
  induction l generalizing a with
  | nil => simp
  | cons x xs ih =>
    simp only [List.foldl_cons]
    rcases ih (max a x) with h | h
    · exact Or.inl (List.mem_cons_of_mem _ h)
    · rcases max_cases a x with ⟨hm, -⟩ | ⟨hm, -⟩
      · exact Or.inr (by rw [h, hm])
      · exact Or.inl (by rw [h, hm]; exact List.mem_cons_self _ _)

/-- For a nonempty list, `listMin` is one of the elements. -/
theorem listMin_mem {l : List ℚ} (h : l ≠ []) : listMin l ∈ l := by
  match l, h with
  | x :: xs, _ =>
    rcases foldl_min_mem xs x with hm | hm
    · exact List.mem_cons_of_mem _ hm
    · rw [listMin, hm]; exact List.mem_cons_self _ _

/-- `listMin` is a lower bound of the elements. -/
theorem listMin_le {l : List ℚ} {y : ℚ} (hy : y ∈ l) : listMin l ≤ y := by
  match l, hy with
  | x :: xs, hy =>
    rcases List.mem_cons.mp hy with rfl | hy'
    · exact foldl_min_le_init xs y
    · exact foldl_min_le_of_mem hy' x

/-- For a nonempty list, `listMax` is one of the elements. -/
theorem listMax_mem {l : List ℚ} (h : l ≠ []) : listMax l ∈ l := by
  match l, h with
  | x :: xs, _ =>
    rcases foldl_max_mem xs x with hm | hm
    · exact List.mem_cons_of_mem _ hm
    · rw [listMax, hm]; exact List.mem_cons_self _ _

/-- `listMax` is an upper bound of the elements. -/
theorem le_listMax {l : List ℚ} {y : ℚ} (hy : y ∈ l) : y ≤ listMax l := by
  match l, hy with
  | x :: xs, hy =>
    rcases List.mem_cons.mp hy with rfl | hy'
    · exact foldl_max_init_le xs y
    · exact le_foldl_max_of_mem hy' x

/-- A positive lower bound on all elements gives a positive `listMin`. -/
theorem listMin_pos {l : List ℚ} (hne : l ≠ []) (hpos : ∀ x ∈ l, 0 < x) :
    0 < listMin l :=
  hpos _ (listMin_mem hne)

/-! ## `return_optimal_dtype` (src/formats/capturefile.py, lines 227-263) -/

/-- Numpy dtypes that `return_optimal_dtype` could in principle mention.
The 64-bit types are included so that "never selected" is expressible;
`category` is the string-compression fallback for `object` columns. -/
inductive NpDtype where
  | uint8 | uint16 | uint32 | uint64
  | int8 | int16 | int32 | int64
  | float32 | float64
  | category
  deriving DecidableEq, Repr

/-- `q.astype(int64)` — truncation toward zero, as numpy casts floats
(for negative `q` the ceiling, written here as `-⌊-q⌋`). -/
def ratTrunc (q : ℚ) : Int :=
  if 0 ≤ q then ⌊q⌋ else -⌊-q⌋

/-- `CaptureFile.return_optimal_dtype`.  `data` is the column as passed in
(`dtypeIsObject` mirrors the `data.dtype == object` test; numeric contents
are the rational list).  `none` covers both the explicit `return None`
(signed values too wide) and the paths where Python raises: `data[0]` on an
empty column, and the unsigned branch leaving `_type` unbound when
`_max ≥ 2**32` (a `NameError` at `return _type`). -/
def return_optimal_dtype (dtypeIsObject : Bool) (data : List ℚ) :
    Option NpDtype :=
  if dtypeIsObject then some .category
  else
    match data with
    | [] => none
    | x :: xs =>
      let _first := x
      let _min := listMin (x :: xs)
      let _max := listMax (x :: xs)
      if _first - (ratTrunc _first : ℚ) = 0 then
        if 0 ≤ _min then
          if _max < 256 then some .uint8
          else if _max < 65536 then some .uint16
          else if _max < 4294967296 then some .uint32
          else none
        else if -129 < _min ∨ _max < 128 then some .int8
        else if -32769 < _min ∨ _max < 32768 then some .int16
        else if -2147483649 < _min ∨ _max < 2147483648 then some .int32
        else none
      else some .float32

/-- The claim's notion of a dtype's representable range covering the
observed minimum and maximum of a column. -/
def dtype_covers (t : NpDtype) (lo hi : ℚ) : Bool :=
  match t with
  | .uint8 => decide (0 ≤ lo) && decide (hi ≤ 255)
  | .uint16 => decide (0 ≤ lo) && decide (hi ≤ 65535)
  | .uint32 => decide (0 ≤ lo) && decide (hi ≤ 4294967295)
  | .uint64 => decide (0 ≤ lo) && decide (hi ≤ 18446744073709551615)
  | .int8 => decide (-128 ≤ lo) && decide (hi ≤ 127)
  | .int16 => decide (-32768 ≤ lo) && decide (hi ≤ 32767)
  | .int32 => decide (-2147483648 ≤ lo) && decide (hi ≤ 2147483647)
  | .int64 => decide (-9223372036854775808 ≤ lo) && decide (hi ≤ 9223372036854775807)
  | _ => true

/-- C3, counterexample: two concrete columns on which the selected integer
dtype does not cover the observed extremes.  (a) `[-5, 1000]`: integral
first value, negative minimum, so the signed branch runs; `_min > -129`
already holds, so the `or`-joined bound test selects `int8` although the
maximum `1000` is far outside `int8`'s range.  (b) `[0, 511/2]`: integral
first value, non-negative minimum; the unsigned tier is picked purely by
`_max < 256`, so `uint8` is selected although the fractional maximum
`255.5` exceeds `uint8`'s largest representable value `255`. -/
theorem C3_dtype_coverage_counterexample :
    (return_optimal_dtype false [-5, 1000] = some .int8 ∧
      dtype_covers .int8 (listMin [-5, 1000]) (listMax [-5, 1000]) = false) ∧
    (return_optimal_dtype false [0, 511 / 2] = some .uint8 ∧
      dtype_covers .uint8 (listMin [0, 511 / 2])
        (listMax [0, 511 / 2]) = false) := by
  constructor
  · norm_num [return_optimal_dtype, listMin, listMax, ratTrunc, dtype_covers]
  · norm_num [return_optimal_dtype, listMin, listMax, ratTrunc, dtype_covers]

/-- C3, amended: `return_optimal_dtype` never selects a 64-bit dtype; a
non-integral first value selects `float32`; for an integral first value
and non-negative minimum the unsigned 8/16/32-bit tier is chosen solely by
strict upper bounds on the observed maximum (`_max < 256 / 65536 / 2^32`),
which covers both observed extremes when the column's values are integers
but not in general (a fractional maximum just below a bound escapes the
tier's range); for a negative minimum the signed tier is picked by an
`or`-joined bound test (`_min > -129 or _max < 128`, etc.), which need not
cover either extreme. -/
theorem C3_dtype_selection_amended (x : ℚ) (xs : List ℚ) :
    (∀ isObj t, return_optimal_dtype isObj (x :: xs) = some t →
      t ≠ .uint64 ∧ t ≠ .int64 ∧ t ≠ .float64) ∧
    (x - (ratTrunc x : ℚ) ≠ 0 →
      return_optimal_dtype false (x :: xs) = some .float32) ∧
    (x - (ratTrunc x : ℚ) = 0 → 0 ≤ listMin (x :: xs) →
      ((return_optimal_dtype false (x :: xs) = some .uint8 ↔
          listMax (x :: xs) < 256) ∧
       (return_optimal_dtype false (x :: xs) = some .uint16 ↔
          (¬listMax (x :: xs) < 256 ∧ listMax (x :: xs) < 65536)) ∧
       (return_optimal_dtype false (x :: xs) = some .uint32 ↔
          (¬listMax (x :: xs) < 256 ∧ ¬listMax (x :: xs) < 65536 ∧
           listMax (x :: xs) < 4294967296)))) ∧
    (x - (ratTrunc x : ℚ) = 0 →
      (∀ y ∈ x :: xs, y = ((ratTrunc y : ℤ) : ℚ)) →
      0 ≤ listMin (x :: xs) →
      ∀ t, return_optimal_dtype false (x :: xs) = some t →
        (t = .uint8 ∨ t = .uint16 ∨ t = .uint32) ∧
        dtype_covers t (listMin (x :: xs)) (listMax (x :: xs)) = true) ∧
    (x - (ratTrunc x : ℚ) = 0 → listMin (x :: xs) < 0 →
      ((return_optimal_dtype false (x :: xs) = some .int8 ↔
          (-129 < listMin (x :: xs) ∨ listMax (x :: xs) < 128)) ∧
       (return_optimal_dtype false (x :: xs) = some .int16 ↔
          (¬(-129 < listMin (x :: xs) ∨ listMax (x :: xs) < 128) ∧
           (-32769 < listMin (x :: xs) ∨ listMax (x :: xs) < 32768))) ∧
       (return_optimal_dtype false (x :: xs) = some .int32 ↔
          (¬(-129 < listMin (x :: xs) ∨ listMax (x :: xs) < 128) ∧
           ¬(-32769 < listMin (x :: xs) ∨ listMax (x :: xs) < 32768) ∧
           (-2147483649 < listMin (x :: xs) ∨
             listMax (x :: xs) < 2147483648))))) := by
  refine ⟨?_, ?_, ?_, ?_, ?_⟩
  · intro isObj t h
    cases isObj with
    | true =>
      simp only [return_optimal_dtype, ite_true, Option.some.injEq] at h
      subst h
      exact ⟨by simp, by simp, by simp⟩
    | false =>
      simp only [return_optimal_dtype, Bool.false_eq_true, if_false] at h
      split_ifs at h <;>
        simp only [Option.some.injEq] at h <;>
        (cases h; exact ⟨by simp, by simp, by simp⟩)
  · intro hint
    simp only [return_optimal_dtype, Bool.false_eq_true, if_false]
    rw [if_neg hint]
  · intro hint hmin
    simp only [return_optimal_dtype, Bool.false_eq_true, if_false]
    rw [if_pos hint, if_pos hmin]
    refine ⟨?_, ?_, ?_⟩
    · split_ifs with h1 h2 h3 <;> simp [h1, *]
    · split_ifs with h1 h2 h3 <;> simp [h1, *]
    · split_ifs with h1 h2 h3 <;> simp [h1, *]
  · intro hint hall hmin t h
    simp only [return_optimal_dtype, Bool.false_eq_true, if_false] at h
    rw [if_pos hint, if_pos hmin] at h
    have hmaxint : listMax (x :: xs) = ((ratTrunc (listMax (x :: xs)) : ℤ) : ℚ) :=
      hall _ (listMax_mem (by simp))
    set mx := listMax (x :: xs) with hmx
    set k : ℤ := ratTrunc mx with hk
    split_ifs at h with h1 h2 h3
    · simp only [Option.some.injEq] at h
      subst h
      refine ⟨Or.inl rfl, ?_⟩
      have hk1 : (k : ℚ) < 256 := by rw [← hmaxint]; exact h1
      have hk2 : k ≤ 255 := by exact_mod_cast Int.lt_add_one_iff.mp (by exact_mod_cast hk1)
      simp only [dtype_covers, Bool.and_eq_true, decide_eq_true_eq]
      exact ⟨hmin, by rw [hmaxint]; exact_mod_cast hk2⟩
    · simp only [Option.some.injEq] at h
      subst h
      refine ⟨Or.inr (Or.inl rfl), ?_⟩
      have hk1 : (k : ℚ) < 65536 := by rw [← hmaxint]; exact h2
      have hk2 : k ≤ 65535 := by exact_mod_cast Int.lt_add_one_iff.mp (by exact_mod_cast hk1)
      simp only [dtype_covers, Bool.and_eq_true, decide_eq_true_eq]
      exact ⟨hmin, by rw [hmaxint]; exact_mod_cast hk2⟩
    · simp only [Option.some.injEq] at h
      subst h
      refine ⟨Or.inr (Or.inr rfl), ?_⟩
      have hk1 : (k : ℚ) < 4294967296 := by rw [← hmaxint]; exact h3
      have hk2 : k ≤ 4294967295 := by exact_mod_cast Int.lt_add_one_iff.mp (by exact_mod_cast hk1)
      simp only [dtype_covers, Bool.and_eq_true, decide_eq_true_eq]
      exact ⟨hmin, by rw [hmaxint]; exact_mod_cast hk2⟩
  · intro hint hmin
    have hmin' : ¬(0 ≤ listMin (x :: xs)) := not_le.mpr hmin
    simp only [return_optimal_dtype, Bool.false_eq_true, if_false]
    rw [if_pos hint, if_neg hmin']
    refine ⟨?_, ?_, ?_⟩
    · split_ifs with h1 h2 h3 <;> simp [h1, *]
    · split_ifs with h1 h2 h3 <;> simp [h1, *]
    · split_ifs with h1 h2 h3 <;> simp [h1, *]

/-- Witness for `C3_dtype_selection_amended`: the integer column `[0, 2]`
selects `uint8`, which covers both extremes. -/
theorem C3_dtype_selection_amended_witness :
    return_optimal_dtype false [0, 2] = some .uint8 ∧
    dtype_covers .uint8 (listMin [0, 2]) (listMax [0, 2]) = true := by
  have h := C3_dtype_selection_amended 0 [2]
  have hr : return_optimal_dtype false [0, 2] = some .uint8 := by
    norm_num [return_optimal_dtype, listMin, listMax, ratTrunc]
  refine ⟨hr, (h.2.2.2.1 (by norm_num [ratTrunc]) ?_ ?_ .uint8 hr).2⟩
  · intro y hy
    rcases List.mem_cons.mp hy with rfl | hy'
    · norm_num [ratTrunc]
    · have : y = 2 := by simpa using hy'
      subst this
      norm_num [ratTrunc]
  · norm_num [listMin]

/-! ## `infer_polling_rate` (src/formats/capturefile.py, lines 661-701) -/

/-- Consecutive deltas of a timestamp column.  `to_datetime` maps each
timestamp to its nanosecond count monotonically; the timestamps are
modelled directly as the resulting numbers. -/
def consecutive_deltas : List ℚ → List ℚ
  | [] => []
  | [_] => []
  | x :: y :: rest => (y - x) :: consecutive_deltas (y :: rest)

/-- `CaptureFile.positive_time_deltas` — keep only the strictly positive
consecutive deltas. -/
def positive_time_deltas (time_data : List ℚ) : List ℚ :=
  (consecutive_deltas time_data).filter (fun d => 0 < d)

/-- `CaptureFile.infer_polling_rate`.  Returns the inferred rate in seconds
together with the (possibly degraded) integrity.  The `else` branch
delegates to `filter_time_deltas`, whose single-pass 3-sigma outlier trim
uses floating-point `std`; it is abstracted as the function parameter
`filter_deltas` since the claims never enter that branch. -/
def infer_polling_rate (filter_deltas : List ℚ → ℚ) (integrity : Integrity)
    (time_data : List ℚ) : ℚ × Integrity :=
  let positive_deltas := positive_time_deltas time_data
  if positive_deltas.length = 0 ∨ listMax positive_deltas = 0 then
    (1, if integrity = .Ideal then .Dirty else integrity)
  else
    (filter_deltas positive_deltas, integrity)

/-- C7: on a timestamp column with no strictly positive consecutive delta,
`infer_polling_rate` returns exactly `1.0` second; the resulting integrity
is never `Ideal`, an `Ideal` file is degraded to exactly `Dirty`, and a
file already at a valid grade ends no better than `Dirty`
(`Dirty.id ≤ id`). -/
theorem C7_polling_rate_fallback (filter_deltas : List ℚ → ℚ)
    (integrity : Integrity) (time_data : List ℚ)
    (hnopos : ∀ d ∈ consecutive_deltas time_data, d ≤ 0) :
    (infer_polling_rate filter_deltas integrity time_data).1 = 1 ∧
    (infer_polling_rate filter_deltas integrity time_data).2 ≠ .Ideal ∧
    (integrity = .Ideal →
      (infer_polling_rate filter_deltas integrity time_data).2 = .Dirty) ∧
    (integrity.valid = true →
      Integrity.Dirty.id ≤
        (infer_polling_rate filter_deltas integrity time_data).2.id) := by
  have hempty : positive_time_deltas time_data = [] := by
    rw [positive_time_deltas, List.filter_eq_nil_iff]
    intro d hd
    simpa using not_lt.mpr (hnopos d hd)
  have hcond : (positive_time_deltas time_data).length = 0 ∨
      listMax (positive_time_deltas time_data) = 0 := by
    rw [hempty]
    exact Or.inl rfl
  unfold infer_polling_rate
  rw [if_pos hcond]
  refine ⟨rfl, ?_, ?_, ?_⟩
  · by_cases h : integrity = .Ideal <;> simp [h]
  · intro h
    simp [h]
  · intro hvalid
    by_cases h : integrity = .Ideal
    · simp [h, Integrity.id]
    · rw [if_neg h]
      cases integrity <;> simp_all [Integrity.valid, Integrity.id]

/-- Witness for `C7_polling_rate_fallback`: a constant timestamp column on
an `Ideal` file yields rate `1` and integrity `Dirty`. -/
theorem C7_polling_rate_fallback_witness :
    (infer_polling_rate (fun _ => 0) .Ideal [5, 5, 5]).1 = 1 ∧
    (infer_polling_rate (fun _ => 0) .Ideal [5, 5, 5]).2 = .Dirty := by
  have h := C7_polling_rate_fallback (fun _ => 0) .Ideal [5, 5, 5]
    (by
      intro d hd
      have : d = 5 - 5 := by
        simpa [consecutive_deltas] using hd
      rw [this]
      norm_num)
  exact ⟨h.1, h.2.2.1 rfl⟩

/-! ## Column resolution (src/formats/capturefile.py, lines 505-659) -/

/-- The value `CaptureFile.column` can produce: pandas returns a 1-D
`Series` for a unique column label, a 2-D `DataFrame` for a duplicated
label, and the zeroed default is Python `None` before
`resize_zero_column` has run. -/
inductive ColResult where
  | pynone
  | series (l : List ℚ)
  | frame (ls : List (List ℚ))
  deriving DecidableEq, Repr

/-- The slice of `CaptureFile` state that column resolution reads. -/
structure CaptureState where
  headers : List String
  dataCols : List (String × List ℚ)
  offset : Nat
  height : Nat
  zero_col : Option (List ℚ)
  aliases : List (String × String)
  fallbacks_in_use : List (String × String)

namespace CaptureState

/-- `CaptureFile.frames()` — the visible row count `height - offset`. -/
def frames (cf : CaptureState) : Nat := cf.height - cf.offset

/-- `CaptureFile.resize_zero_column`. -/
def resize_zero_column (cf : CaptureState) : CaptureState :=
  { cf with zero_col := some (List.replicate cf.frames 0) }

/-- The `self.zero_col` default that `column` falls back to. -/
def zeroColResult (cf : CaptureState) : ColResult :=
  match cf.zero_col with
  | none => .pynone
  | some l => .series l

/-- `self.data.loc[self.offset : self.height - 1, ...]` — the label slice is
inclusive on both ends, i.e. rows `offset, ..., height - 1`. -/
def colSlice (cf : CaptureState) (col : List ℚ) : List ℚ :=
  (col.drop cf.offset).take (cf.height - cf.offset)

/-- `CaptureFile.column`: the zeroed default for `"None"`/`"Index"`/missing
headers; otherwise the `.loc` row slice, which is a 1-D series for a unique
label and a 2-D frame when the label is duplicated.  (A label present in
`headers` but absent from the data would raise a `KeyError` that the
`try/finally` converts back to the zeroed default.) -/
def column (cf : CaptureState) (column_name : String) : ColResult :=
  if column_name = "None" ∨ column_name = "Index" ∨ column_name ∉ cf.headers
  then cf.zeroColResult
  else
    match cf.dataCols.filter (fun p => p.1 = column_name) with
    | [] => cf.zeroColResult
    | [c] => .series (cf.colSlice c.2)
    | cs => .frame (cs.map (fun c => cf.colSlice c.2))

/-- `CaptureFile.preferred_aliases` — `aliases(version).get(phrase, "None")`. -/
def preferred_aliases (cf : CaptureState) (phrase : String) : String :=
  (alookup cf.aliases phrase).getD "None"

/-- `CaptureFile.header_by_alias` —
`fallbacks_in_use.get(phrase, preferred_aliases(phrase))`. -/
def header_by_alias (cf : CaptureState) (phrase : String) : String :=
  (alookup cf.fallbacks_in_use phrase).getD (cf.preferred_aliases phrase)

/-- `CaptureFile.column_by_alias`: resolve via the alias; a `None` result
falls back to the zeroed column, a 2-D result (duplicated columns,
`len(result.shape) == 2`) likewise. -/
def column_by_alias (cf : CaptureState) (phrase : String) : ColResult :=
  if phrase = "None" then cf.column "None"
  else
    match cf.column (cf.header_by_alias phrase) with
    | .pynone => cf.column "None"
    | .series l => .series l
    | .frame _ => cf.column "None"

end CaptureState

/-- C8: with `zero_col` maintained by `resize_zero_column` (first conjunct),
a generic phrase whose alias — after fallback substitution — is not a
header of the file resolves to a zero-filled series of length
`height - offset`; a phrase mapping to duplicated columns resolves to the
same zero-filled series. -/
theorem C8_unresolved_alias_zero_fill (cf : CaptureState) (phrase : String)
    (hzero : cf.zero_col = some (List.replicate (cf.height - cf.offset) 0)) :
    (∀ cf' : CaptureState, (cf'.resize_zero_column).zero_col =
      some (List.replicate (cf'.height - cf'.offset) 0)) ∧
    (cf.header_by_alias phrase ∉ cf.headers →
      cf.column_by_alias phrase =
        .series (List.replicate (cf.height - cf.offset) 0)) ∧
    (2 ≤ (cf.dataCols.filter
        (fun p => p.1 = cf.header_by_alias phrase)).length →
      cf.column_by_alias phrase =
        .series (List.replicate (cf.height - cf.offset) 0)) := by
  have hzc : cf.zeroColResult = .series (List.replicate (cf.height - cf.offset) 0) := by
    rw [CaptureState.zeroColResult, hzero]
  have hnone : cf.column "None" =
      .series (List.replicate (cf.height - cf.offset) 0) := by
    rw [CaptureState.column, if_pos (Or.inl rfl)]
    exact hzc
  refine ⟨fun cf' => rfl, ?_, ?_⟩
  · intro hmiss
    rw [CaptureState.column_by_alias]
    by_cases hp : phrase = "None"
    · rw [if_pos hp]
      exact hnone
    · rw [if_neg hp]
      have hcol : cf.column (cf.header_by_alias phrase) =
          .series (List.replicate (cf.height - cf.offset) 0) := by
        rw [CaptureState.column, if_pos (Or.inr (Or.inr hmiss))]
        exact hzc
      rw [hcol]
  · intro hdup
    rw [CaptureState.column_by_alias]
    by_cases hp : phrase = "None"
    · rw [if_pos hp]
      exact hnone
    · rw [if_neg hp]
      rw [CaptureState.column]
      by_cases hguard : cf.header_by_alias phrase = "None" ∨
          cf.header_by_alias phrase = "Index" ∨
          cf.header_by_alias phrase ∉ cf.headers
      · rw [if_pos hguard, hzc]
      · rw [if_neg hguard]
        rcases hfil : cf.dataCols.filter
            (fun p => p.1 = cf.header_by_alias phrase) with _ | ⟨c1, _ | ⟨c2, cs⟩⟩
        · rw [hfil] at hdup
          simp at hdup
        · rw [hfil] at hdup
          simp at hdup
        · rw [hfil]
          exact hnone

/-- Witness for `C8_unresolved_alias_zero_fill`: a file with two visible
rows and no binding for the phrase yields the two-element zero series. -/
theorem C8_unresolved_alias_zero_fill_witness :
    ({ headers := ["TimeInSeconds"],
       dataCols := [("TimeInSeconds", [3, 4])],
       offset := 0, height := 2,
       zero_col := some [0, 0],
       aliases := [("Elapsed Time", "TimeInSeconds")],
       fallbacks_in_use := [] : CaptureState }).column_by_alias "Frametimes" =
      .series [0, 0] := by
  have h := C8_unresolved_alias_zero_fill
    { headers := ["TimeInSeconds"],
      dataCols := [("TimeInSeconds", [3, 4])],
      offset := 0, height := 2,
      zero_col := some [0, 0],
      aliases := [("Elapsed Time", "TimeInSeconds")],
      fallbacks_in_use := [] } "Frametimes" (by decide)
  have hr := h.2.1 (by decide)
  exact hr.trans (by decide)

/-! ## Statistics-section cache (src/gui/plotobject.py, lines 573-615) -/

/-- The mutable state that `use_cached_stats` touches: the per-instance
`self._hashes` dict (section → last hash key) and the class-level
`_cache_hits` counters (section → `[hits, total]`).  The Python hash of
`(offset, height, *criteria)` is modelled by the key tuple itself — equal
tuples hash equally, which is the only property the cache-hit direction
uses; `K` is the type of the section-specific extra criteria. -/
structure StatState (K : Type) where
  hashes : String → Option (Nat × Nat × K)
  cacheHits : String → Nat × Nat

/-- `PlotObject.use_cached_stats`: bump the section's total counter, compare
the stored hash with `hash((offset, height, *criteria))`; on a hit bump the
hit counter and report `True`, otherwise store the new hash and report
`False`.  (The `except` path cannot trigger here: hashing a tuple of plain
numbers does not raise.) -/
def use_cached_stats {K : Type} [DecidableEq K] (st : StatState K)
    (sec : String) (offset height : Nat) (extra : K) :
    Bool × StatState K :=
  let range_hash := (offset, height, extra)
  if st.hashes sec = some range_hash then
    (true,
      { hashes := st.hashes,
        cacheHits := fun s =>
          if s = sec then ((st.cacheHits s).1 + 1, (st.cacheHits s).2 + 1)
          else st.cacheHits s })
  else
    (false,
      { hashes := fun s => if s = sec then some range_hash else st.hashes s,
        cacheHits := fun s =>
          if s = sec then ((st.cacheHits s).1, (st.cacheHits s).2 + 1)
          else st.cacheHits s })

/-- One `set_*_metrics` section body (e.g. `set_stutter_metrics`):
an optional short-circuit guard (e.g. `tainted_frametimes()`), then
`use_cached_stats`; recompute the section's cells only on a miss. -/
def run_stats_section {K S : Type} [DecidableEq K] (guard : Bool)
    (compute : S → S) (sec : String) (offset height : Nat) (extra : K)
    (st : StatState K) (stats : S) : StatState K × S :=
  if guard then (st, stats)
  else
    match use_cached_stats st sec offset height extra with
    | (true, st') => (st', stats)
    | (false, st') => (st', compute stats)

/-- The section's miss count: total calls minus hits. -/
def stat_misses {K : Type} (st : StatState K) (sec : String) : Nat :=
  (st.cacheHits sec).2 - (st.cacheHits sec).1

/-- After any `use_cached_stats` call the stored hash for the section is the
key that was just presented (a hit leaves the matching hash in place, a
miss stores it). -/
theorem use_cached_stats_stores {K : Type} [DecidableEq K]
    (st : StatState K) (sec : String) (offset height : Nat) (extra : K) :
    ((use_cached_stats st sec offset height extra).2).hashes sec =
      some (offset, height, extra) := by
  unfold use_cached_stats
  by_cases h : st.hashes sec = some (offset, height, extra)
  · rw [if_pos h]
    exact h
  · rw [if_neg h]
    simp

/-- C9: if a statistics section is computed (first `run_stats_section`
call) and then run again with the file's offset, height and the section's
extra criteria unchanged, the second call is detected as a cache hit by
`use_cached_stats`, leaves every statistics cell identical (`stats1` passes
through untouched), and does not increase the section's miss count
(total − hits). -/
theorem C9_stats_cache_second_call_hits {K S : Type} [DecidableEq K]
    (compute : S → S) (sec : String) (offset height : Nat) (extra : K)
    (st0 : StatState K) (stats0 : S) (st1 : StatState K) (stats1 : S)
    (h1 : run_stats_section false compute sec offset height extra st0 stats0 =
      (st1, stats1)) :
    (use_cached_stats st1 sec offset height extra).1 = true ∧
    run_stats_section false compute sec offset height extra st1 stats1 =
      ((use_cached_stats st1 sec offset height extra).2, stats1) ∧
    stat_misses (use_cached_stats st1 sec offset height extra).2 sec =
      stat_misses st1 sec := by
  have hstored : st1.hashes sec = some (offset, height, extra) := by
    have := use_cached_stats_stores st0 sec offset height extra
    rw [run_stats_section] at h1
    simp only [Bool.false_eq_true, if_false] at h1
    rcases hu : use_cached_stats st0 sec offset height extra with ⟨b, st'⟩
    rw [hu] at h1 this
    cases b
    · simp only at h1
      rw [← (Prod.mk.injEq _ _ _ _ |>.mp h1).1]
      exact this
    · simp only at h1
      rw [← (Prod.mk.injEq _ _ _ _ |>.mp h1).1]
      exact this
  have hhit : use_cached_stats st1 sec offset height extra =
      (true,
        { hashes := st1.hashes,
          cacheHits := fun s =>
            if s = sec then ((st1.cacheHits s).1 + 1, (st1.cacheHits s).2 + 1)
            else st1.cacheHits s }) := by
    unfold use_cached_stats
    rw [if_pos hstored]
  refine ⟨by rw [hhit], ?_, ?_⟩
  · rw [run_stats_section]
    simp only [Bool.false_eq_true, if_false]
    rw [hhit]
  · rw [hhit]
    simp only [stat_misses, eq_self_iff_true, if_true]
    omega

/-- Witness for `C9_stats_cache_second_call_hits` at the "Stutter" section
with decimal precision 2 as extra criteria, starting from an empty cache. -/
theorem C9_stats_cache_second_call_hits_witness :
    (use_cached_stats
      (run_stats_section false (fun _ : List String => ["0.00%"]) "Stutter"
        0 100 (2 : Nat) ⟨fun _ => none, fun _ => (0, 0)⟩ ["N/A"]).1
      "Stutter" 0 100 2).1 = true := by
  have h := C9_stats_cache_second_call_hits
    (fun _ : List String => ["0.00%"]) "Stutter" 0 100 (2 : Nat)
    ⟨fun _ => none, fun _ => (0, 0)⟩ ["N/A"]
    (run_stats_section false (fun _ : List String => ["0.00%"]) "Stutter"
      0 100 (2 : Nat) ⟨fun _ => none, fun _ => (0, 0)⟩ ["N/A"]).1
    (run_stats_section false (fun _ : List String => ["0.00%"]) "Stutter"
      0 100 (2 : Nat) ⟨fun _ => none, fun _ => (0, 0)⟩ ["N/A"]).2
    rfl
  exact h.1

/-! ## Block-wise file hashing (src/formats/capturefile.py, lines 171-191) -/

/-- `CaptureFile.calculate_file_hash`: feed each block to the hash object
and return the digest.  A `hashlib` object's state is exactly the byte
sequence absorbed so far — `update` appends, and `hexdigest` applies the
configured hash (`_HASH_ALGORITHM = sha3_256`) to the absorbed bytes.  The
SHA3-256 compression itself lives in CPython's `hashlib`, outside this
repository, so the digest map is the abstract parameter `hexdigest`;
bytes are numbers. -/
def calculate_file_hash (hexdigest : List Nat → String)
    (file_blocks : List (List Nat)) : String :=
  hexdigest (file_blocks.foldl (fun absorbed block => absorbed ++ block) [])

/-- `CaptureFile.iterable_file_blocks` — split the file's bytes into
successive blocks of `_HASH_BLOCK_SIZE = 65536` bytes; reading stops at the
first empty block. -/
def iterable_file_blocks : List Nat → List (List Nat)
  | [] => []
  | b :: rest =>
    ((b :: rest).take 65536) :: iterable_file_blocks ((b :: rest).drop 65536)
termination_by l => l.length
decreasing_by
  simp only [List.length_drop, List.length_cons]
  omega

theorem foldl_append_eq (bs : List (List Nat)) (acc : List Nat) :
    bs.foldl (fun a b => a ++ b) acc = acc ++ bs.flatten := by
  induction bs generalizing acc with
  | nil => simp
  | cons b bs ih => simp [ih]

/-- Chunking a byte string into 65536-byte blocks and concatenating them
back yields the original bytes. -/
theorem join_iterable_file_blocks (content : List Nat) :
    (iterable_file_blocks content).flatten = content := by
  induction content using iterable_file_blocks.induct with
  | case1 => rw [iterable_file_blocks]; rfl
  | case2 b rest ih =>
    rw [iterable_file_blocks, List.flatten_cons, ih, List.take_append_drop]

/-- C10: the digest computed by streaming a file in fixed 65536-byte blocks
equals the digest of the file's entire byte content, and more generally the
digest depends only on the concatenation of the blocks — any segmentation
of the same bytes produces the same cross-session key. -/
theorem C10_hash_independent_of_blocking (hexdigest : List Nat → String)
    (content : List Nat) (blocks : List (List Nat))
    (hseg : blocks.flatten = content) :
    calculate_file_hash hexdigest (iterable_file_blocks content) =
      hexdigest content ∧
    calculate_file_hash hexdigest blocks = hexdigest content := by
  constructor
  · rw [calculate_file_hash, foldl_append_eq, join_iterable_file_blocks,
      List.nil_append]
  · rw [calculate_file_hash, foldl_append_eq, hseg, List.nil_append]

/-- Witness for `C10_hash_independent_of_blocking`: a three-byte file,
streamed whole or split as `[[1], [2, 3]]`, produces the digest of
`[1, 2, 3]`. -/
theorem C10_hash_independent_of_blocking_witness :
    calculate_file_hash (fun l => toString l.length)
      (iterable_file_blocks [1, 2, 3]) = "3" ∧
    calculate_file_hash (fun l => toString l.length) [[1], [2, 3]] = "3" := by
  have h := C10_hash_independent_of_blocking (fun l => toString l.length)
    [1, 2, 3] [[1], [2, 3]] (by decide)
  exact ⟨h.1.trans rfl, h.2.trans rfl⟩

/-! ## Format detection (src/core/fileloader.py, lines 116-166) -/

/-- One `(format, version)` fingerprint candidate: application name,
version string, and the expected header set for that version.  The
`capture_fingerprints` table itself is defined outside `src/`; the claim
quantifies over all fingerprints, so the table is a parameter, listed in
the iteration order of the nested dicts. -/
abbrev Fingerprint := String × String × List String

/-- The overlap score `len(header_set ∩ match_set) / len(match_set)`;
the fingerprint list is read as a set (`dedup`). -/
def fingerprint_score (headers : List String) (fp : List String) : ℚ :=
  ((fp.dedup.filter (fun h => h ∈ headers)).length : ℚ) /
    ((fp.dedup.length : ℚ))

/-- The selection loop of `FileLoader.infer_format`: the accumulator is
`(best (application, version) so far, percent_matches)`, updated whenever
`shared_headers > 0 and shared_headers >= percent_matches` — the `>=`
means a later candidate with an equal score overrides an earlier one. -/
def best_fingerprint (headers : List String) :
    List Fingerprint → Option (String × String) × ℚ →
      Option (String × String) × ℚ
  | [], acc => acc
  | e :: rest, acc =>
    best_fingerprint headers rest
      (if 0 < fingerprint_score headers e.2.2 ∧
          acc.2 ≤ fingerprint_score headers e.2.2
       then (some (e.1, e.2.1), fingerprint_score headers e.2.2) else acc)

/-- `FileLoader.infer_format`, selection part: `none` is the Verbatim
fallback (`application is None` — no candidate scored above zero, which
includes the case of empty/unusable extracted headers). -/
def infer_format (fingerprints : List Fingerprint) (headers : List String) :
    Option (String × String) :=
  (best_fingerprint headers fingerprints (none, 0)).1

/-- Right-to-left scan equivalent to the selection loop: keeps the later
candidate on ties.  Proof vehicle for `C5_format_detection`. -/
def last_best (headers : List String) : ℚ → List Fingerprint →
    Option (Fingerprint × ℚ)
  | _, [] => none
  | b, e :: rest =>
    match last_best headers
        (if 0 < fingerprint_score headers e.2.2 ∧
            b ≤ fingerprint_score headers e.2.2
         then fingerprint_score headers e.2.2 else b) rest with
    | some r => some r
    | none =>
      if 0 < fingerprint_score headers e.2.2 ∧
          b ≤ fingerprint_score headers e.2.2
      then some (e, fingerprint_score headers e.2.2) else none

theorem fingerprint_score_nonneg (headers fp : List String) :
    0 ≤ fingerprint_score headers fp := by
  unfold fingerprint_score
  positivity

theorem best_fingerprint_eq_last_best (headers : List String)
    (es : List Fingerprint) :
    ∀ acc : Option (String × String) × ℚ,
      (best_fingerprint headers es acc).1 =
        match last_best headers acc.2 es with
        | some r => some (r.1.1, r.1.2.1)
        | none => acc.1 := by
  induction es with
  | nil => intro acc; rfl
  | cons e rest ih =>
    intro acc
    rw [best_fingerprint, last_best]
    by_cases hc : 0 < fingerprint_score headers e.2.2 ∧
        acc.2 ≤ fingerprint_score headers e.2.2
    · rw [if_pos hc, if_pos hc, ih]
      cases hlb : last_best headers (fingerprint_score headers e.2.2) rest with
      | some r => rfl
      | none => rw [if_pos hc]
    · rw [if_neg hc, if_neg hc, ih]
      cases hlb : last_best headers acc.2 rest with
      | some r => rfl
      | none => rw [if_neg hc]

theorem last_best_eq_none_iff (headers : List String) (es : List Fingerprint) :
    ∀ b : ℚ, last_best headers b es = none ↔
      ∀ e ∈ es, ¬(0 < fingerprint_score headers e.2.2 ∧
        b ≤ fingerprint_score headers e.2.2) := by
  induction es with
  | nil => intro b; simp [last_best]
  | cons e rest ih =>
    intro b
    rw [last_best]
    simp only [List.forall_mem_cons]
    by_cases hc : 0 < fingerprint_score headers e.2.2 ∧
        b ≤ fingerprint_score headers e.2.2
    · rw [if_pos hc, if_pos hc]
      cases hlb : last_best headers (fingerprint_score headers e.2.2) rest with
      | some r =>
        constructor
        · intro habs
          exact absurd habs (by simp)
        · intro hall
          exact absurd hc hall.1
      | none =>
        constructor
        · intro habs
          exact absurd habs (by simp)
        · intro hall
          exact absurd hc hall.1
    · rw [if_neg hc, if_neg hc]
      cases hlb : last_best headers b rest with
      | some r =>
        constructor
        · intro habs
          exact absurd habs (by simp)
        · intro hall
          exact absurd ((ih b).mpr hall.2) (by simp [hlb])
      | none =>
        constructor
        · intro _
          exact ⟨hc, (ih b).mp hlb⟩
        · intro _
          rfl

theorem last_best_eq_some_spec (headers : List String) (es : List Fingerprint) :
    ∀ b : ℚ, 0 ≤ b → ∀ e : Fingerprint, ∀ s : ℚ,
      last_best headers b es = some (e, s) →
      s = fingerprint_score headers e.2.2 ∧ 0 < s ∧ b ≤ s ∧
      ∃ pre post, es = pre ++ e :: post ∧
        (∀ f ∈ pre, fingerprint_score headers f.2.2 ≤ s) ∧
        (∀ f ∈ post, fingerprint_score headers f.2.2 < s) := by
  induction es with
  | nil => intro b _ e s h; cases h
  | cons e0 rest ih =>
    intro b hb e s h
    rw [last_best] at h
    by_cases hc : 0 < fingerprint_score headers e0.2.2 ∧
        b ≤ fingerprint_score headers e0.2.2
    · rw [if_pos hc, if_pos hc] at h
      cases hlb : last_best headers (fingerprint_score headers e0.2.2) rest with
      | some r =>
        rw [hlb] at h
        simp only [Option.some.injEq] at h
        obtain ⟨hs, hpos, hbound, pre, post, hsplit, hpre, hpost⟩ :=
          ih (fingerprint_score headers e0.2.2) (le_of_lt hc.1) e s
            (by rw [hlb, h])
        refine ⟨hs, hpos, le_trans hc.2 hbound, e0 :: pre, post, ?_, ?_, hpost⟩
        · rw [hsplit]
          rfl
        · intro f hf
          rcases List.mem_cons.mp hf with rfl | hf'
          · exact hbound
          · exact hpre f hf'
      | none =>
        rw [hlb] at h
        simp only [Option.some.injEq, Prod.mk.injEq] at h
        obtain ⟨he, hs⟩ := h
        refine ⟨by rw [← he, ← hs], by rw [← hs]; exact hc.1,
          by rw [← hs]; exact hc.2, [], rest, by simp [he], by simp, ?_⟩
        intro f hf
        rw [← hs]
        have hnot := (last_best_eq_none_iff headers rest
          (fingerprint_score headers e0.2.2)).mp hlb f hf
        by_cases hfp : 0 < fingerprint_score headers f.2.2
        · by_contra hge
          exact hnot ⟨hfp, not_lt.mp hge⟩
        · exact lt_of_le_of_lt (not_lt.mp hfp) hc.1
    · rw [if_neg hc, if_neg hc] at h
      cases hlb : last_best headers b rest with
      | some r =>
        rw [hlb] at h
        simp only [Option.some.injEq] at h
        obtain ⟨hs, hpos, hbound, pre, post, hsplit, hpre, hpost⟩ :=
          ih b hb e s (by rw [hlb, h])
        refine ⟨hs, hpos, hbound, e0 :: pre, post, ?_, ?_, hpost⟩
        · rw [hsplit]
          rfl
        · intro f hf
          rcases List.mem_cons.mp hf with rfl | hf'
          · rcases not_and_or.mp hc with h0 | hlow
            · exact le_trans (not_lt.mp h0) (le_of_lt hpos)
            · exact le_trans (le_of_lt (not_le.mp hlow)) hbound
          · exact hpre f hf'
      | none =>
        rw [hlb] at h
        cases h

/-- C5: `infer_format` falls back to Verbatim (`none`) exactly when no
fingerprint scores above zero, and any selected `(application, version)`
comes from a candidate whose score is positive, is an upper bound of every
candidate's score, and strictly exceeds the score of every candidate
compared after it — i.e. the maximal score wins and ties resolve to the
later candidate.  As a pure function of the headers and the fingerprint
table, the selection is the same on every rerun. -/
theorem C5_format_detection (fingerprints : List Fingerprint)
    (headers : List String) :
    (infer_format fingerprints headers = none ↔
      ∀ e ∈ fingerprints, ¬(0 < fingerprint_score headers e.2.2)) ∧
    (∀ av : String × String, infer_format fingerprints headers = some av →
      ∃ e : Fingerprint, ∃ pre post, fingerprints = pre ++ e :: post ∧
        av = (e.1, e.2.1) ∧
        0 < fingerprint_score headers e.2.2 ∧
        (∀ f ∈ pre, fingerprint_score headers f.2.2 ≤
          fingerprint_score headers e.2.2) ∧
        (∀ f ∈ post, fingerprint_score headers f.2.2 <
          fingerprint_score headers e.2.2)) := by
  have hinfer : infer_format fingerprints headers =
      match last_best headers 0 fingerprints with
      | some r => some (r.1.1, r.1.2.1)
      | none => none :=
    best_fingerprint_eq_last_best headers fingerprints (none, 0)
  constructor
  · rw [hinfer]
    cases hlb : last_best headers 0 fingerprints with
    | some r =>
      constructor
      · intro habs
        exact absurd habs (by simp)
      · intro hall
        obtain ⟨hs, hpos, -, pre, post, hsplit, -, -⟩ :=
          last_best_eq_some_spec headers fingerprints 0 le_rfl r.1 r.2
            (by rw [hlb])
        have hmem : r.1 ∈ fingerprints := by
          rw [hsplit]
          exact List.mem_append_right _ (List.mem_cons_self _ _)
        have hpos' : 0 < fingerprint_score headers r.1.2.2 := by
          rw [← hs]
          exact hpos
        exact absurd hpos' (hall r.1 hmem)
    | none =>
      constructor
      · intro _
        intro e he hpos
        exact (last_best_eq_none_iff headers fingerprints 0).mp hlb e he
          ⟨hpos, fingerprint_score_nonneg headers e.2.2⟩
      · intro _
        rfl
  · intro av hav
    rw [hinfer] at hav
    cases hlb : last_best headers 0 fingerprints with
    | some r =>
      rw [hlb] at hav
      simp only [Option.some.injEq] at hav
      obtain ⟨hs, hpos, -, pre, post, hsplit, hpre, hpost⟩ :=
        last_best_eq_some_spec headers fingerprints 0 le_rfl r.1 r.2
          (by rw [hlb])
      rw [hs] at hpos hpre hpost
      exact ⟨r.1, pre, post, hsplit, hav.symm, hpos, hpre, hpost⟩
    | none =>
      rw [hlb] at hav
      exact absurd hav (by simp)

/-- Witness for `C5_format_detection`: headers sharing nothing with the
single fingerprint score zero, so the Verbatim fallback is chosen. -/
theorem C5_format_detection_witness :
    infer_format [("FrameView", "1.0", ["TimeInSeconds", "MsBetweenPresents"])]
      ["Unrelated"] = none := by
  have h := C5_format_detection
    [("FrameView", "1.0", ["TimeInSeconds", "MsBetweenPresents"])]
    ["Unrelated"]
  refine h.1.mpr ?_
  intro e he
  have he' : e = ("FrameView", "1.0", ["TimeInSeconds", "MsBetweenPresents"]) := by
    simpa using he
  subst he'
  intro hpos
  have hfil : (["TimeInSeconds", "MsBetweenPresents"].dedup.filter
      (fun h => h ∈ (["Unrelated"] : List String))) = [] := by decide
  rw [fingerprint_score, hfil] at hpos
  simp at hpos

/-! ## Stutter and oscillation heuristics
(src/formats/capturefile.py, lines 333-472) -/

/-- Insertion sort (ascending) — the order statistics behind pandas'
rolling median/quantile. -/
def insertSorted (x : ℚ) : List ℚ → List ℚ
  | [] => [x]
  | y :: ys => if x ≤ y then x :: y :: ys else y :: insertSorted x ys

def isort : List ℚ → List ℚ
  | [] => []
  | x :: xs => insertSorted x (isort xs)

/-- pandas `median` of one window: middle order statistic (mean of the two
middle ones for an even count). -/
def listMedian (l : List ℚ) : ℚ :=
  if l.length % 2 = 1 then (isort l).getD (l.length / 2) 0
  else ((isort l).getD (l.length / 2 - 1) 0 + (isort l).getD (l.length / 2) 0) / 2

/-- pandas `Rolling.quantile(q)` (default linear interpolation) on one
window: the value at position `q * (n - 1)` between order statistics. -/
def listQuantile (q : ℚ) (l : List ℚ) : ℚ :=
  let s := isort l
  let pos : ℚ := q * ((l.length : ℚ) - 1)
  let f : Nat := pos.floor.toNat
  s.getD f 0 + (pos - (f : ℚ)) * (s.getD (f + 1) (s.getD f 0) - s.getD f 0)

/-- The centered size-19 rolling window at index `i`
(`rolling(window_size, min_periods=window_size, center=True)` with the
default `StutterWindowSize = 19`): indices `i-9 .. i+9`, defined only when
the window lies fully inside the series — pandas yields NaN otherwise. -/
def rollingWindow (xs : List ℚ) (i : Nat) : Option (List ℚ) :=
  if 9 ≤ i ∧ i + 10 ≤ xs.length then some ((xs.drop (i - 9)).take 19)
  else none

/-- Percent deviation of frame `i` from its rolling-window median
(`none` is the NaN of an incomplete window). -/
def percentDeviation (xs : List ℚ) (i : Nat) : Option ℚ :=
  (rollingWindow xs i).map (fun w =>
    |xs.getD i 0 - listMedian w| / listMedian w)

/-- Frame `i` is flagged as a stutter frame: the relative deviation from
the window median exceeds `delta_pct` AND the absolute deviation exceeds
`delta_ms` (both comparisons are false on the NaN of an incomplete
window). -/
def stutterFlag (delta_pct delta_ms : ℚ) (xs : List ℚ) (i : Nat) : Bool :=
  match rollingWindow xs i with
  | none => false
  | some w =>
    decide (|xs.getD i 0 - listMedian w| / listMedian w > delta_pct) &&
      decide (|xs.getD i 0 - listMedian w| > delta_ms)

/-- Indices of the flagged stutter frames (`where(stutter_frames == 1)`). -/
def stutterFrames (delta_pct delta_ms : ℚ) (xs : List ℚ) : List Nat :=
  (List.range xs.length).filter (fun i => stutterFlag delta_pct delta_ms xs i)

/-- `stutter_deltas` — the percent deviations of exactly the flagged
frames (a flagged frame always has a complete window). -/
def stutterDeltas (delta_pct delta_ms : ℚ) (xs : List ℚ) : List ℚ :=
  (stutterFrames delta_pct delta_ms xs).map
    (fun i => (percentDeviation xs i).getD 0)

/-- A stutter-statistics cell: numeric, or the `"OSC"` sentinel string. -/
inductive StatCell where
  | num (q : ℚ)
  | osc
  deriving DecidableEq, Repr

/-- The `deviations` slot of the `Stutter` namedtuple: the per-frame
percent-deviation array (`none` entries are the NaNs of incomplete
windows; the invalid result is the all-zero array), or `"OSC"`. -/
inductive DevArray where
  | arr (l : List (Option ℚ))
  | osc
  deriving DecidableEq, Repr

/-- The `Stutter` namedtuple
`(deviations, total, proportional, average, max)`. -/
structure StutterResult where
  deviations : DevArray
  total : ℚ
  proportional : ℚ
  average : StatCell
  max : StatCell
  deriving DecidableEq, Repr

/-- A rolling window is an oscillation period when the relative IQR
`Q3/Q1 - 1` and the absolute IQR `Q3 - Q1` both reach the thresholds the
code passes in (comparisons on incomplete windows' NaNs are false). -/
def oscFlag (delta_pct delta_ms : ℚ) (xs : List ℚ) (i : Nat) : Bool :=
  match rollingWindow xs i with
  | none => false
  | some w =>
    decide (listQuantile (3/4) w / listQuantile (1/4) w - 1 ≥ delta_pct) &&
      decide (listQuantile (3/4) w - listQuantile (1/4) w ≥ delta_ms)

/-- Indices of the oscillating windows. -/
def oscFrames (delta_pct delta_ms : ℚ) (xs : List ℚ) : List Nat :=
  (List.range xs.length).filter (fun i => oscFlag delta_pct delta_ms xs i)

/-- `CaptureFile.oscillation_heuristic`.  The arguments are the raw
configured settings; the code divides `OscDeltaPct` by 100 (percent →
fraction) and divides the millisecond threshold `OscDeltaMs` by 100 the
same way (`delta_ms = float(setting(..., "OscDeltaMs")) / 100`), so the
effective absolute-IQR threshold is a hundredth of the configured value.
Returns `none` when the oscillating share of frames is below the warn
percentage, else the short-circuit result carrying the `"OSC"` sentinel
with the count and proportion of oscillating windows. -/
def oscillation_heuristic (oscDeltaMs oscDeltaPct oscWarnPct : ℚ)
    (xs : List ℚ) : Option StutterResult :=
  if xs.length = 0 then none
  else if ((oscFrames (oscDeltaPct / 100) (oscDeltaMs / 100) xs).length : ℚ) /
      (xs.length : ℚ) < oscWarnPct / 100 then none
  else
    some ⟨.osc,
      ((oscFrames (oscDeltaPct / 100) (oscDeltaMs / 100) xs).length : ℚ),
      ((oscFrames (oscDeltaPct / 100) (oscDeltaMs / 100) xs).length : ℚ) /
        (xs.length : ℚ),
      .osc, .osc⟩

/-- `CaptureFile.stutter_heuristic` with the default window size 19.
`testForOsc` is the `TestForOscillation` setting; `stutterDeltaMs` is used
as configured while `stutterDeltaPct` is divided by 100.  An empty series
(numpy raises on `min` of an empty array; the handler returns the invalid
result) or a zero minimum short-circuits to the all-zero invalid result;
infinite frametimes are outside the rational value domain (the claims
exclude them).  If enabled, the oscillation sub-check runs first and its
result, when significant, is returned as-is.  Otherwise frames are flagged
by `stutterFlag` and the aggregates are computed over exactly the flagged
frames. -/
def stutter_heuristic (testForOsc : Bool)
    (oscDeltaMs oscDeltaPct oscWarnPct : ℚ)
    (stutterDeltaMs stutterDeltaPct : ℚ) (xs : List ℚ) : StutterResult :=
  if xs.length = 0 then
    ⟨.arr (List.replicate xs.length (some 0)), 0, 0, .num 0, .num 0⟩
  else if listMin xs = 0 then
    ⟨.arr (List.replicate xs.length (some 0)), 0, 0, .num 0, .num 0⟩
  else
    match (if testForOsc then
        oscillation_heuristic oscDeltaMs oscDeltaPct oscWarnPct xs
      else none) with
    | some osc => osc
    | none =>
      ⟨.arr ((List.range xs.length).map (fun i => percentDeviation xs i)),
        ((stutterFrames (stutterDeltaPct / 100) stutterDeltaMs xs).length : ℚ),
        (if 0 < (stutterFrames (stutterDeltaPct / 100) stutterDeltaMs xs).length
         then ((stutterFrames (stutterDeltaPct / 100) stutterDeltaMs
            xs).length : ℚ) / (xs.length : ℚ)
         else 0),
        .num (if 0 <
            (stutterFrames (stutterDeltaPct / 100) stutterDeltaMs xs).length
          then (stutterDeltas (stutterDeltaPct / 100) stutterDeltaMs xs).sum /
            ((stutterDeltas (stutterDeltaPct / 100) stutterDeltaMs
              xs).length : ℚ)
          else 0),
        .num (if 0 <
            (stutterFrames (stutterDeltaPct / 100) stutterDeltaMs xs).length
          then listMax (stutterDeltas (stutterDeltaPct / 100) stutterDeltaMs xs)
          else 0)⟩

theorem stutterDeltas_length (delta_pct delta_ms : ℚ) (xs : List ℚ) :
    (stutterDeltas delta_pct delta_ms xs).length =
      (stutterFrames delta_pct delta_ms xs).length := by
  rw [stutterDeltas, List.length_map]

/-- C1: for a frametime series with positive minimum (infinities are outside
the value domain) and the oscillation gate not short-circuiting, frame `i`
is flagged iff its window is complete and its absolute deviation from the
centered 19-frame rolling median exceeds BOTH the relative threshold
(deviation over window median vs `StutterDeltaPct/100`) AND the absolute
threshold (`StutterDeltaMs`); exceeding only one leg never flags.  The
reported total, proportion (of all frames), average and max are computed
over exactly the flagged frames (rational division by zero is zero, which
coincides with the code's explicit zeros when nothing is flagged). -/
theorem C1_stutter_and_gate (testForOsc : Bool)
    (oscDeltaMs oscDeltaPct oscWarnPct stutterDeltaMs stutterDeltaPct : ℚ)
    (xs : List ℚ) (hne : xs ≠ []) (hpos : ∀ x ∈ xs, 0 < x)
    (hosc : testForOsc = true →
      oscillation_heuristic oscDeltaMs oscDeltaPct oscWarnPct xs = none) :
    (∀ i : Nat,
      stutterFlag (stutterDeltaPct / 100) stutterDeltaMs xs i = true ↔
        ∃ w, rollingWindow xs i = some w ∧
          |xs.getD i 0 - listMedian w| / listMedian w > stutterDeltaPct / 100 ∧
          |xs.getD i 0 - listMedian w| > stutterDeltaMs) ∧
    (stutter_heuristic testForOsc oscDeltaMs oscDeltaPct oscWarnPct
        stutterDeltaMs stutterDeltaPct xs).deviations =
      .arr ((List.range xs.length).map (fun i => percentDeviation xs i)) ∧
    (stutter_heuristic testForOsc oscDeltaMs oscDeltaPct oscWarnPct
        stutterDeltaMs stutterDeltaPct xs).total =
      ((stutterFrames (stutterDeltaPct / 100) stutterDeltaMs xs).length : ℚ) ∧
    (stutter_heuristic testForOsc oscDeltaMs oscDeltaPct oscWarnPct
        stutterDeltaMs stutterDeltaPct xs).proportional =
      ((stutterFrames (stutterDeltaPct / 100) stutterDeltaMs xs).length : ℚ) /
        (xs.length : ℚ) ∧
    (stutter_heuristic testForOsc oscDeltaMs oscDeltaPct oscWarnPct
        stutterDeltaMs stutterDeltaPct xs).average =
      .num ((stutterDeltas (stutterDeltaPct / 100) stutterDeltaMs xs).sum /
        ((stutterDeltas (stutterDeltaPct / 100) stutterDeltaMs
          xs).length : ℚ)) ∧
    (stutter_heuristic testForOsc oscDeltaMs oscDeltaPct oscWarnPct
        stutterDeltaMs stutterDeltaPct xs).max =
      .num (listMax (stutterDeltas (stutterDeltaPct / 100) stutterDeltaMs xs))
    := by
  have hn : ¬(xs.length = 0) := by simpa using hne
  have hmin : ¬(listMin xs = 0) := ne_of_gt (listMin_pos hne hpos)
  have hoscn : (if testForOsc then
      oscillation_heuristic oscDeltaMs oscDeltaPct oscWarnPct xs
    else none) = none := by
    cases testForOsc
    · rfl
    · exact hosc rfl
  have hr : stutter_heuristic testForOsc oscDeltaMs oscDeltaPct oscWarnPct
      stutterDeltaMs stutterDeltaPct xs =
      ⟨.arr ((List.range xs.length).map (fun i => percentDeviation xs i)),
        ((stutterFrames (stutterDeltaPct / 100) stutterDeltaMs xs).length : ℚ),
        (if 0 < (stutterFrames (stutterDeltaPct / 100) stutterDeltaMs
            xs).length
         then ((stutterFrames (stutterDeltaPct / 100) stutterDeltaMs
            xs).length : ℚ) / (xs.length : ℚ)
         else 0),
        .num (if 0 <
            (stutterFrames (stutterDeltaPct / 100) stutterDeltaMs xs).length
          then (stutterDeltas (stutterDeltaPct / 100) stutterDeltaMs xs).sum /
            ((stutterDeltas (stutterDeltaPct / 100) stutterDeltaMs
              xs).length : ℚ)
          else 0),
        .num (if 0 <
            (stutterFrames (stutterDeltaPct / 100) stutterDeltaMs xs).length
          then listMax (stutterDeltas (stutterDeltaPct / 100) stutterDeltaMs
            xs)
          else 0)⟩ := by
    rw [stutter_heuristic, if_neg hn, if_neg hmin, hoscn]
  refine ⟨?_, ?_, ?_, ?_, ?_, ?_⟩
  · intro i
    rw [stutterFlag]
    cases hw : rollingWindow xs i with
    | none => simp
    | some w =>
      simp only [Bool.and_eq_true, decide_eq_true_eq]
      constructor
      · rintro ⟨h1, h2⟩
        exact ⟨w, rfl, h1, h2⟩
      · rintro ⟨w', hw', h1, h2⟩
        simp only [Option.some.injEq] at hw'
        subst hw'
        exact ⟨h1, h2⟩
  · rw [hr]
  · rw [hr]
  · rw [hr]
    by_cases hcnt : 0 < (stutterFrames (stutterDeltaPct / 100) stutterDeltaMs
        xs).length
    · simp only [if_pos hcnt]
    · simp only [if_neg hcnt]
      have h0 : (stutterFrames (stutterDeltaPct / 100) stutterDeltaMs
          xs).length = 0 := by omega
      rw [h0]
      norm_num
  · rw [hr]
    by_cases hcnt : 0 < (stutterFrames (stutterDeltaPct / 100) stutterDeltaMs
        xs).length
    · simp only [if_pos hcnt]
    · simp only [if_neg hcnt]
      have h0 : (stutterFrames (stutterDeltaPct / 100) stutterDeltaMs
          xs).length = 0 := by omega
      have hd0 : stutterDeltas (stutterDeltaPct / 100) stutterDeltaMs xs
          = [] := by
        have := stutterDeltas_length (stutterDeltaPct / 100) stutterDeltaMs xs
        rw [h0] at this
        exact List.length_eq_zero.mp this
      rw [hd0]
      simp
  · rw [hr]
    by_cases hcnt : 0 < (stutterFrames (stutterDeltaPct / 100) stutterDeltaMs
        xs).length
    · simp only [if_pos hcnt]
    · simp only [if_neg hcnt]
      have h0 : (stutterFrames (stutterDeltaPct / 100) stutterDeltaMs
          xs).length = 0 := by omega
      have hd0 : stutterDeltas (stutterDeltaPct / 100) stutterDeltaMs xs
          = [] := by
        have := stutterDeltas_length (stutterDeltaPct / 100) stutterDeltaMs xs
        rw [h0] at this
        exact List.length_eq_zero.mp this
      rw [hd0]
      rfl

/-- Witness for `C1_stutter_and_gate`: the three-frame all-positive series
`[1, 2, 3]` with the oscillation test disabled and the default thresholds;
no 19-frame window exists, so nothing is flagged and the total is zero. -/
theorem C1_stutter_and_gate_witness :
    (stutter_heuristic false 4 20 3 4 20 [1, 2, 3]).total = 0 ∧
    stutterFlag (20 / 100) 4 [1, 2, 3] 1 = false := by
  have h := C1_stutter_and_gate false 4 20 3 4 20 [1, 2, 3]
    (by decide) (by decide) (by intro hq; cases hq)
  constructor
  · rw [h.2.2.1]
    norm_num [stutterFrames, List.range, List.range.loop, List.filter,
      stutterFlag, rollingWindow]
  · decide

/-- `Rat.floor` agrees with the `FloorRing` floor on `ℚ`. -/
theorem ratFloor_eq_intFloor (q : ℚ) : q.floor = ⌊q⌋ := rfl

/-- A 19-frame capture alternating between 10 ms and 12 ms frametimes:
every full window has `Q1 = 10`, `Q3 = 12`, hence relative IQR
`12/10 - 1 = 20%` and absolute IQR `2` ms — below the configured
`OscDeltaMs = 4` ms but above the code's effective `4/100` ms. -/
def osc_series : List ℚ :=
  [10, 12, 10, 12, 10, 12, 10, 12, 10, 12, 10, 12, 10, 12, 10, 12, 10, 12, 10]

theorem osc_series_q1 : listQuantile (1 / 4) osc_series = 10 := by
  have hsort : isort osc_series =
      [10, 10, 10, 10, 10, 10, 10, 10, 10, 10,
       12, 12, 12, 12, 12, 12, 12, 12, 12] := by decide
  have hlen : osc_series.length = 19 := by decide
  have hpos : (1 / 4 : ℚ) * ((19 : ℚ) - 1) = 9 / 2 := by norm_num
  simp only [listQuantile, hsort, hlen, Nat.cast_ofNat, hpos,
    ratFloor_eq_intFloor]
  rw [show ⌊(9 / 2 : ℚ)⌋ = 4 from by norm_num,
    show Int.toNat 4 = 4 from rfl]
  norm_num [List.getD]

theorem osc_series_q3 : listQuantile (3 / 4) osc_series = 12 := by
  have hsort : isort osc_series =
      [10, 10, 10, 10, 10, 10, 10, 10, 10, 10,
       12, 12, 12, 12, 12, 12, 12, 12, 12] := by decide
  have hlen : osc_series.length = 19 := by decide
  have hpos : (3 / 4 : ℚ) * ((19 : ℚ) - 1) = 27 / 2 := by norm_num
  simp only [listQuantile, hsort, hlen, Nat.cast_ofNat, hpos,
    ratFloor_eq_intFloor]
  rw [show ⌊(27 / 2 : ℚ)⌋ = 13 from by norm_num,
    show Int.toNat 13 = 13 from rfl]
  norm_num [List.getD]

theorem osc_series_flag9 :
    oscFlag (20 / 100) (4 / 100) osc_series 9 = true := by
  rw [oscFlag, show rollingWindow osc_series 9 = some osc_series from by decide]
  show (decide (listQuantile (3 / 4) osc_series /
        listQuantile (1 / 4) osc_series - 1 ≥ 20 / 100) &&
      decide (listQuantile (3 / 4) osc_series -
        listQuantile (1 / 4) osc_series ≥ 4 / 100)) = true
  rw [osc_series_q3, osc_series_q1]
  simp only [Bool.and_eq_true, decide_eq_true_eq]
  norm_num

theorem osc_series_frames :
    oscFrames (20 / 100) (4 / 100) osc_series = [9] := by
  rw [oscFrames, show osc_series.length = 19 from by decide,
    show List.range 19 =
      [0, 1, 2, 3, 4, 5, 6, 7, 8, 9, 10, 11, 12, 13, 14, 15, 16, 17, 18]
      from by decide]
  simp only [List.filter_cons, List.filter_nil, osc_series_flag9]
  norm_num
  decide

theorem osc_series_heuristic :
    oscillation_heuristic 4 20 3 osc_series =
      some ⟨.osc, 1, 1 / 19, .osc, .osc⟩ := by
  rw [oscillation_heuristic,
    if_neg (show ¬(osc_series.length = 0) from by decide),
    osc_series_frames, show ([9] : List Nat).length = 1 from rfl,
    show osc_series.length = 19 from by decide]
  rw [if_neg (show ¬(((1 : ℕ) : ℚ) / ((19 : ℕ) : ℚ) < 3 / 100) from by
    norm_num)]
  norm_num

set_option maxRecDepth 4000 in
/-- C6 (refuting the claimed absolute-IQR threshold): on a 19-frame capture
alternating 10 ms / 12 ms with the default settings
(`OscDeltaMs = 4`, `OscDeltaPct = 20`, `OscWarnPct = 3`,
`TestForOscillation = True`), the stutter computation IS short-circuited to
the `"OSC"`-sentinel result — carrying the count (1) and proportion (1/19)
of oscillating windows — even though no window's absolute IQR reaches the
configured 4 ms threshold (every complete window has IQR 2 ms): the code
divides `OscDeltaMs` by 100, contradicting its own
"greater than threshold (default: 4 ms)" comment. -/
theorem C6_osc_ms_threshold_bug :
    stutter_heuristic true 4 20 3 4 20 osc_series =
      ⟨.osc, 1, 1 / 19, .osc, .osc⟩ ∧
    (∀ i : Nat, ∀ w : List ℚ, rollingWindow osc_series i = some w →
      listQuantile (3 / 4) w - listQuantile (1 / 4) w < 4) := by
  constructor
  · rw [stutter_heuristic,
      if_neg (show ¬(osc_series.length = 0) from by decide),
      if_neg (show ¬(listMin osc_series = 0) from by decide),
      if_pos rfl, osc_series_heuristic]
  · intro i w hw
    rw [rollingWindow] at hw
    split_ifs at hw with hc
    · have hlen : osc_series.length = 19 := by decide
      rw [hlen] at hc
      have hi : i = 9 := by omega
      subst hi
      simp only [Option.some.injEq] at hw
      rw [← hw, show ((osc_series.drop (9 - 9)).take 19) = osc_series from by
        decide, osc_series_q3, osc_series_q1]
      norm_num

/-- Witness for `C6_osc_ms_threshold_bug` at the one complete window
(`i = 9`): its absolute IQR stays below the configured 4 ms. -/
theorem C6_osc_ms_threshold_bug_witness :
    listQuantile (3 / 4) osc_series - listQuantile (1 / 4) osc_series < 4 :=
  C6_osc_ms_threshold_bug.2 9 osc_series (by decide)

/-- 19 frames of 24 ms with a single 30 ms spike at the window center:
deviation 6 ms = 25% of the local median. -/
def spike_series_flagged : List ℚ :=
  [24, 24, 24, 24, 24, 24, 24, 24, 24, 30, 24, 24, 24, 24, 24, 24, 24, 24, 24]

/-- 19 frames of 8 ms with a single 10 ms spike at the window center:
deviation 2 ms = 25% of the local median. -/
def spike_series_nearmiss : List ℚ :=
  [8, 8, 8, 8, 8, 8, 8, 8, 8, 10, 8, 8, 8, 8, 8, 8, 8, 8, 8]

/-- The spec's positive test vector: a frame deviating 25% and 6 ms from
its local median is flagged (both legs of the AND-gate hold). -/
theorem stutter_gate_flagged_example :
    stutterFlag (20 / 100) 4 spike_series_flagged 9 = true := by
  rw [stutterFlag,
    show rollingWindow spike_series_flagged 9 = some spike_series_flagged
      from by decide]
  show (decide (|spike_series_flagged.getD 9 0 -
        listMedian spike_series_flagged| / listMedian spike_series_flagged >
        20 / 100) &&
      decide (|spike_series_flagged.getD 9 0 -
        listMedian spike_series_flagged| > 4)) = true
  rw [show listMedian spike_series_flagged = 24 from by decide,
    show spike_series_flagged.getD 9 0 = 30 from by decide]
  simp only [Bool.and_eq_true, decide_eq_true_eq]
  constructor <;> norm_num

/-- The spec's negative test vector: a frame deviating 25% but only 2 ms
from its local median is NOT flagged — it fails the absolute-threshold
leg of the AND-gate. -/
theorem stutter_gate_nearmiss_example :
    stutterFlag (20 / 100) 4 spike_series_nearmiss 9 = false := by
  rw [stutterFlag,
    show rollingWindow spike_series_nearmiss 9 = some spike_series_nearmiss
      from by decide]
  show (decide (|spike_series_nearmiss.getD 9 0 -
        listMedian spike_series_nearmiss| / listMedian spike_series_nearmiss >
        20 / 100) &&
      decide (|spike_series_nearmiss.getD 9 0 -
        listMedian spike_series_nearmiss| > 4)) = false
  rw [show listMedian spike_series_nearmiss = 8 from by decide,
    show spike_series_nearmiss.getD 9 0 = 10 from by decide]
  have habs : ¬(|(10 : ℚ) - 8| > 4) := by norm_num
  simp [habs]

end Pydra
